import Mathlib

/-!
Shallow embedding of `src/sa_api_v2/models/core.py` (Shareabouts API v2 core models):
the SubmittedThing save orchestration, secondary-index maintenance, dataset bulk
reindexing, the cloneable-model mixin, and the post-create dataset hook.

The record store is modelled as an explicit state value (`DB`) threaded through the
operations; code that can raise returns `Except`.  Parts of the repository that the
file under `src/` only calls into (the `IndexedValue` manager in `data_indexes.py`,
the CORS `Origin` model, and the base `CacheClearingModel`/ORM persistence) are
modelled from the specification and marked as such in their doc comments.
-/

namespace Shareabouts

/-- JSON documents, as produced by parsing a data blob (core.py line 1 imports
`ujson`; line 112 parses the blob with `json.loads`). -/
inductive Json where
  | null : Json
  | bool : Bool → Json
  | num : Int → Json
  | str : String → Json
  | arr : List Json → Json
  | obj : List (String × Json) → Json

/-- Raw `data` text blob of a `ModelWithDataBlob` (core.py line 72), abstracted by its
parse status: `some j` stands for well-formed JSON text that parses to `j`, and
`none` stands for malformed text. -/
abbrev Blob := Option Json

/-- Behaviour of `ujson.loads` on a blob (core.py line 112): returns the parsed
document, and raises a `ValueError` on malformed text. -/
def json_loads : Blob → Except String Json
  | some j => Except.ok j
  | none => Except.error "ValueError: Expected object or value"

/-- An index spec defined on a dataset (class `DataIndex` of
`sa_api_v2/models/data_indexes.py`, reached from core.py as `dataset.indexes`):
names a JSON-blob field to extract and index. -/
structure IndexSpec where
  id : Nat
  datasetId : Nat
  path : String
  deriving DecidableEq

/-- An `IndexedValue` row (`sa_api_v2/models/data_indexes.py`, not under `src/`):
the denormalized (thing, index) to extracted-value mapping.  `value = none` is the
stored null/absent value for a failed extraction. -/
structure IndexedValue where
  thingId : Option Nat
  indexId : Nat
  value : Option Json

/-- A `SubmittedThing` (core.py lines 89-103): nullable submitter FK, dataset FK and
visibility flag, plus the `data` blob from `ModelWithDataBlob` and the `id` primary
key, unset (`none`) before the first persist.  The auto-managed timestamp pair of
`TimeStampedModel` is not consulted by any of the verified operations and is left
out of the state. -/
structure SubmittedThing where
  id : Option Nat
  submitter : Option Nat
  dataset : Nat
  visible : Bool
  data : Blob

/-- An `Action` audit record (core.py lines 274-289): an action kind, the FK to the
thing (column `data_id`), and a source label. -/
structure Action where
  action : String
  thing : Option Nat
  source : String

/-- A `DataSet` (core.py lines 135-154). -/
structure DataSet where
  id : Nat
  owner : Nat
  display_name : String
  slug : String

/-- State of the record store: the tables the verified operations touch, plus the
primary-key sequence used when a new thing is inserted. -/
structure DB where
  things : List SubmittedThing
  indexSpecs : List IndexSpec
  indexedValues : List IndexedValue
  actions : List Action
  nextId : Nat

/-- Key match of an `IndexedValue` row against a (thing, index) pair. -/
def rowKey (r : IndexedValue) (tid : Option Nat) (iid : Nat) : Bool :=
  r.thingId == tid && r.indexId == iid

/-- Value stored for a (thing, index) pair, when a row exists. -/
def lookupIV : List IndexedValue → Option Nat → Nat → Option (Option Json)
  | [], _, _ => none
  | r :: rs, tid, iid => if rowKey r tid iid then some r.value else lookupIV rs tid iid

/-- Upsert of an `IndexedValue` row: when a row for the key exists it is updated in
place, otherwise a row is appended (spec §4.1: upsert semantics, not append). -/
def syncRows (rows : List IndexedValue) (tid : Option Nat) (iid : Nat)
    (v : Option Json) : List IndexedValue :=
  if rows.any (fun r => rowKey r tid iid) then
    rows.map (fun r => if rowKey r tid iid then { r with value := v } else r)
  else
    rows ++ [⟨tid, iid, v⟩]

/-- First binding of a key in an association list; models both a parsed JSON object
and a Python keyword-argument dict. -/
def lookupField : List (String × Json) → String → Option Json
  | [], _ => none
  | (n, v) :: rest, f => if n = f then some v else lookupField rest f

/-- Modelled from the spec: the Index Engine's field-path extraction (§4.1), whose
code lives in `sa_api_v2/models/data_indexes.py` which is not under `src/`.  The
index spec's field path is looked up in the already-parsed blob; a missing path, or
a document that is not an object, yields no value. -/
def extract (data : Json) (path : String) : Option Json :=
  match data with
  | Json.obj fields => lookupField fields path
  | _ => none

/-- Modelled from the spec: `IndexedValue.objects.sync(thing, index, data=data)`
(called at core.py line 114; implemented in `sa_api_v2/models/data_indexes.py`,
which is not under `src/`).  Spec §4.1 and §7: extract the value at the index's
field path from the already-parsed blob and upsert the `IndexedValue` row for
(thing, index); a missing path is recovered locally as a stored null value. -/
def IndexedValue.sync (t : SubmittedThing) (idx : IndexSpec) (data : Json)
    (db : DB) : DB :=
  { db with indexedValues := syncRows db.indexedValues t.id idx.id (extract data idx.path) }

/-- Loop of core.py lines 113-114: `for index in indexes: IndexedValue.objects.sync(self, index, data=data)`. -/
def syncAll (t : SubmittedThing) (data : Json) : List IndexSpec → DB → DB
  | [], db => db
  | idx :: rest, db => syncAll t data rest (IndexedValue.sync t idx data db)

/-- Index specs currently defined on a dataset: `dataset.indexes.all()`
(core.py lines 107 and 184). -/
def datasetIndexes (db : DB) (dsId : Nat) : List IndexSpec :=
  db.indexSpecs.filter (fun s => s.datasetId == dsId)

/-- Default of the `indexes` argument of `index_values` (core.py lines 106-107):
`None` means all index specs currently defined on the thing's dataset. -/
def resolveIndexes (t : SubmittedThing) (indexes : Option (List IndexSpec))
    (db : DB) : List IndexSpec :=
  match indexes with
  | none => datasetIndexes db t.dataset
  | some l => l

/-- `SubmittedThing.index_values` (core.py lines 105-114).  The result pairs the
updated store with the number of `json.loads` calls performed by this call; it is
`Except.error` exactly when `json.loads` raises.  The length-zero short circuit
(line 109-110) returns before the blob is parsed or any row is touched. -/
def SubmittedThing.index_values (t : SubmittedThing)
    (indexes : Option (List IndexSpec)) (db : DB) : Except String (DB × Nat) :=
  if (resolveIndexes t indexes db).length == 0 then Except.ok (db, 0)
  else
    match json_loads t.data with
    | Except.error e => Except.error e
    | Except.ok data => Except.ok (syncAll t data (resolveIndexes t indexes db) db, 1)

/-- Type of the base persistence capability reached by
`super(SubmittedThing, self).save(*args, **kwargs)` (core.py line 119).
`CacheClearingModel` and the ORM save are not under `src/`, so the save
orchestration is parametrized by the persist step. -/
abbrev PersistFn := SubmittedThing → DB → Except String (SubmittedThing × DB)

/-- `SubmittedThing.save` (core.py lines 116-132): record newness from the unset id
(line 117, before persisting), persist (line 119), reindex unless suppressed
(lines 121-122), then append one audit `Action` unless `silent` (lines 124-130).
The source computes `is_new` before the persist call; here the argument `t` is the
pre-persist record (the persisted row is returned separately by `persist`), so
`t.id.isNone` is exactly that pre-persist check. -/
def SubmittedThing.save (persist : PersistFn) (t : SubmittedThing) (silent : Bool)
    (source : String) (reindex : Bool) (db : DB) :
    Except String (SubmittedThing × DB) :=
  match persist t db with
  | Except.error e => Except.error e
  | Except.ok (t2, db1) =>
    match (if reindex then SubmittedThing.index_values t2 none db1
           else Except.ok (db1, 0)) with
    | Except.error e => Except.error e
    | Except.ok (db2, _) =>
      if silent then Except.ok (t2, db2)
      else Except.ok (t2,
        { db2 with actions := db2.actions ++
            [{ action := if t.id.isNone then "create" else "update",
               thing := t2.id, source := source }] })

/-- Modelled from the spec: the base persistence capability
(`CacheClearingModel.save` in `sa_api_v2/models/caching.py` and the ORM save, not
under `src/`).  Spec §4.3: "Persist via Record Store (delegates to base persistence
capability)" and "Return: the persisted entity (with identity assigned if new)".
A record without an id is assigned a fresh identity and inserted; a record with an
id replaces the stored row with that id, inserting when no such row exists. -/
def recordStorePersist : PersistFn := fun t db =>
  match t.id with
  | none =>
    Except.ok ({ t with id := some db.nextId },
      { db with things := db.things ++ [{ t with id := some db.nextId }],
                nextId := db.nextId + 1 })
  | some _ =>
    if db.things.any (fun u => u.id == t.id) then
      Except.ok (t,
        { db with things := db.things.map (fun u => if u.id == t.id then t else u) })
    else
      Except.ok (t, { db with things := db.things ++ [t] })

/-- A record-store persist that rejects the write: a PersistenceFailure in the sense
of spec §7 (constraint violation, storage error). -/
def failingPersist (msg : String) : PersistFn := fun _ _ => Except.error msg

/-- Loop of `DataSet.reindex` (core.py lines 186-187):
`for thing in things: thing.index_values(indexes)`. -/
def reindexThings (idxs : List IndexSpec) : List SubmittedThing → DB → Except String DB
  | [], db => Except.ok db
  | t :: rest, db =>
    match SubmittedThing.index_values t (some idxs) db with
    | Except.error e => Except.error e
    | Except.ok (db2, _) => reindexThings idxs rest db2

/-- `DataSet.reindex` (core.py lines 182-187): fetch the dataset's things and its
currently defined index specs once, then call `index_values` on every thing with
that spec list. -/
def DataSet.reindex (ds : DataSet) (db : DB) : Except String DB :=
  reindexThings (datasetIndexes db ds.id)
    (db.things.filter (fun t => t.dataset == ds.id)) db

/-- A permission row attached to an origin (`sa_api_v2/cors/models.py`, not under
`src/`); only the two flags touched by the seeding hook are modelled. -/
structure Permission where
  can_update : Bool
  can_destroy : Bool
  deriving DecidableEq

/-- An allowed origin of a dataset (`sa_api_v2/cors/models.py`, not under `src/`):
an origin pattern plus its permission rows. -/
structure Origin where
  datasetId : Nat
  pattern : String
  permissions : List Permission
  deriving DecidableEq

/-- Modelled from the spec: `Origin.objects.create(dataset=instance, pattern=...)`
(core.py lines 197 and 200; the `Origin` model is not under `src/`): a fresh origin
row for the dataset, carrying whatever default permission rows origin creation
seeds (`defaultPerms`). -/
def Origin.create (dsId : Nat) (pat : String) (defaultPerms : List Permission) :
    Origin :=
  { datasetId := dsId, pattern := pat, permissions := defaultPerms }

/-- Bulk update `origin.permissions.all().update(can_update=False, can_destroy=False)`
(core.py lines 198 and 201). -/
def Origin.disablePermissions (o : Origin) : Origin :=
  { o with permissions :=
      o.permissions.map (fun p => { p with can_update := false, can_destroy := false }) }

/-- `after_create_dataset` (core.py lines 190-202), the post-save hook connected to
`DataSet`: on a creation save (`created = true`) it seeds the two default allowed
origins and disables their update/destroy permissions; on any other save it does
nothing.  `defaultPerms` stands for the permission rows origin creation seeds in
the CORS module (not under `src/`). -/
def after_create_dataset (created : Bool) (dsId : Nat)
    (defaultPerms : List Permission) (origins : List Origin) : List Origin :=
  if created then
    origins ++
      [(Origin.create dsId "(?:www.)?openplans.org" defaultPerms).disablePermissions,
       (Origin.create dsId "openplans.github.io" defaultPerms).disablePermissions]
  else origins

/-- A model class as seen by the clone mixin (core.py lines 15-60): its own concrete
fields (including its primary-key field), the primary-key field name, and — for the
`derived` form — the parent class that the primary key links to, mirroring a Django
parent-link primary key (`pk_fld.rel.parent_link`, core.py line 33). -/
inductive ModelClass where
  | base : List String → String → ModelClass
  | derived : List String → String → ModelClass → ModelClass

/-- Name of the primary-key field of a class (`ModelClass._meta.pk.name`,
core.py line 23). -/
def ModelClass.pkName : ModelClass → String
  | ModelClass.base _ pk => pk
  | ModelClass.derived _ pk _ => pk

/-- Full concrete field list of a class (`_meta.fields`, core.py lines 22 and 46):
inherited fields first, then the class's own fields. -/
def ModelClass.fields : ModelClass → List String
  | ModelClass.base own _ => own
  | ModelClass.derived own _ p => p.fields ++ own

/-- Chain of primary-key / parent-link field names up the inheritance chain. -/
def ModelClass.pkChain : ModelClass → List String
  | ModelClass.base _ pk => [pk]
  | ModelClass.derived _ pk p => pk :: p.pkChain

/-- `CloneableModelMixin.get_ignore_fields` (core.py lines 21-37): the pk name, plus
recursively the ignore fields of the parent class when the pk field is a parent
link; raises when the class has no pk field among its fields (line 31). -/
def CloneableModelMixin.get_ignore_fields : ModelClass → Except String (List String)
  | ModelClass.base own pk =>
    if pk ∈ (ModelClass.base own pk).fields then Except.ok [pk]
    else Except.error "Model somehow has no PK field"
  | ModelClass.derived own pk p =>
    if pk ∈ (ModelClass.derived own pk p).fields then
      match CloneableModelMixin.get_ignore_fields p with
      | Except.ok parentIgnore => Except.ok (pk :: parentIgnore)
      | Except.error e => Except.error e
    else Except.error "Model somehow has no PK field"

/-- A model instance as a field valuation; a field absent from the list is unset and
reads as `Json.null` (a fresh instance's default). -/
def getattr (inst : List (String × Json)) (f : String) : Json :=
  (lookupField inst f).getD Json.null

/-- Python's `dict.setdefault(name, value)` on the keyword-argument dict
(core.py line 53): keep an existing binding, otherwise add one. -/
def setdefault (kw : List (String × Json)) (f : String) (v : Json) :
    List (String × Json) :=
  match lookupField kw f with
  | some _ => kw
  | none => kw ++ [(f, v)]

/-- Loop of core.py lines 50-53: for every field of the class not in the ignore set,
default the keyword argument to the source instance's value. -/
def copyFields (ignore : List String) (self : List (String × Json)) :
    List String → List (String × Json) → List (String × Json)
  | [], kw => kw
  | f :: rest, kw =>
    copyFields ignore self rest
      (if f ∈ ignore then kw else setdefault kw f (getattr self f))

/-- `CloneableModelMixin.clone` (core.py lines 39-60) without the optional commit:
compute the ignore fields of the concrete class, copy every non-ignored field of the
source that the caller did not override, and build the new instance from the
resulting keyword arguments.  The embedding is pure, so the source instance is
untouched by construction; the `commit=True` save only assigns the new instance's
own identity and is orchestrated by `SubmittedThing.save` above. -/
def CloneableModelMixin.clone (cls : ModelClass) (self : List (String × Json))
    (inst_kwargs : List (String × Json)) : Except String (List (String × Json)) :=
  match CloneableModelMixin.get_ignore_fields cls with
  | Except.error e => Except.error e
  | Except.ok ignore => Except.ok (copyFields ignore self cls.fields inst_kwargs)

/-! Concrete fixtures used by the witness theorems below. -/

/-- A string index spec on field `name` of dataset 0. -/
def wSpec : IndexSpec := ⟨1, 0, "name"⟩

/-- A fresh, not yet persisted thing in dataset 0. -/
def wThing : SubmittedThing :=
  { id := none, submitter := none, dataset := 0, visible := true,
    data := some (Json.obj [("name", Json.str "Central Park")]) }

/-- A store holding no things yet and one index spec on dataset 0. -/
def wDb : DB :=
  { things := [], indexSpecs := [wSpec], indexedValues := [], actions := [],
    nextId := 1 }

/-- The persisted form of `wThing`. -/
def wThing2 : SubmittedThing := { wThing with id := some 1 }

/-- Result state of a non-silent save of `wThing` into `wDb` with source "web". -/
def wDb2 : DB :=
  { things := [wThing2], indexSpecs := [wSpec],
    indexedValues := [⟨some 1, 1, some (Json.str "Central Park")⟩],
    actions := [⟨"create", some 1, "web"⟩], nextId := 2 }

/-- A thing carrying a pre-assigned primary key that is not yet stored. -/
def wThingPre : SubmittedThing := { wThing with id := some 5 }

/-- Result state of a non-silent save of `wThingPre` into `wDb` with source
"import". -/
def wDb9 : DB :=
  { things := [wThingPre], indexSpecs := [wSpec],
    indexedValues := [⟨some 5, 1, some (Json.str "Central Park")⟩],
    actions := [⟨"update", some 5, "import"⟩], nextId := 1 }

/-- A stored thing whose well-formed blob is missing the indexed field `name`. -/
def tMiss : SubmittedThing :=
  { id := some 7, submitter := none, dataset := 0, visible := true,
    data := some (Json.obj []) }

/-- Result state of `index_values` on `tMiss` over `wDb`: a stored null value. -/
def wDbMiss : DB := { wDb with indexedValues := [⟨some 7, 1, none⟩] }

/-- A stored thing with a well-formed blob binding the indexed field `name`. -/
def tC5 : SubmittedThing :=
  { id := some 2, submitter := none, dataset := 0, visible := true,
    data := some (Json.obj [("name", Json.str "CP")]) }

/-- A stored thing whose data blob is malformed JSON text. -/
def mThing : SubmittedThing :=
  { id := some 3, submitter := none, dataset := 0, visible := true, data := none }

/-- A store whose dataset 0 defines no index specs. -/
def dbNoIdx : DB := { wDb with indexSpecs := [] }

/-- The dataset of the bulk-reindex fixture. -/
def dsW : DataSet := { id := 0, owner := 1, display_name := "Parks", slug := "parks" }

/-- First stored thing of the bulk-reindex fixture. -/
def tA : SubmittedThing :=
  { id := some 1, submitter := none, dataset := 0, visible := true,
    data := some (Json.obj [("name", Json.str "A")]) }

/-- Second stored thing of the bulk-reindex fixture. -/
def tB : SubmittedThing :=
  { id := some 2, submitter := none, dataset := 0, visible := true,
    data := some (Json.obj [("name", Json.str "B")]) }

/-- A store with two things in dataset 0 and no indexed values yet. -/
def wDbX : DB :=
  { things := [tA, tB], indexSpecs := [wSpec], indexedValues := [], actions := [],
    nextId := 3 }

/-- Result state of `DataSet.reindex` of `dsW` over `wDbX`. -/
def dbR : DB :=
  { wDbX with indexedValues :=
      [⟨some 1, 1, some (Json.str "A")⟩, ⟨some 2, 1, some (Json.str "B")⟩] }

/-- The SubmittedThing model class as the clone mixin sees it: the concrete fields
of core.py lines 64-97 with primary key `id`. -/
def submittedThingClass : ModelClass :=
  ModelClass.base
    ["id", "created_datetime", "updated_datetime", "data", "submitter", "dataset",
     "visible"] "id"

/-- The Submission model class (core.py lines 255-271): a multi-table child of
SubmittedThing whose primary key is the parent link `submittedthing_ptr`. -/
def submissionClass : ModelClass :=
  ModelClass.derived ["submittedthing_ptr", "place", "set_name"] "submittedthing_ptr"
    submittedThingClass

/-- A source Submission instance for the clone fixture. -/
def wSelf : List (String × Json) :=
  [("id", Json.num 9), ("created_datetime", Json.num 100),
   ("updated_datetime", Json.num 200), ("data", Json.str "blob"),
   ("submitter", Json.null), ("dataset", Json.num 4), ("visible", Json.bool true),
   ("submittedthing_ptr", Json.num 9), ("place", Json.num 11),
   ("set_name", Json.str "comments")]

/-- Caller overrides for the clone fixture. -/
def wKwargs : List (String × Json) := [("set_name", Json.str "surveys")]

/-! Lemmas about indexed-value rows and the upsert. -/

theorem rowKey_set_value (r : IndexedValue) (tid : Option Nat) (iid : Nat)
    (v : Option Json) :
    rowKey { r with value := v } tid iid = rowKey r tid iid := rfl

theorem rowKey_eq_true (r : IndexedValue) (tid : Option Nat) (iid : Nat) :
    rowKey r tid iid = true ↔ r.thingId = tid ∧ r.indexId = iid := by
  simp [rowKey]

theorem lookupIV_any (rows : List IndexedValue) (tid : Option Nat) (iid : Nat) :
    rows.any (fun r => rowKey r tid iid) = (lookupIV rows tid iid).isSome := by
  induction rows with
  | nil => rfl
  | cons r rs ih =>
    cases h : rowKey r tid iid with
    | true => simp [lookupIV, h]
    | false => simp [lookupIV, h, ih]

theorem lookupIV_update (rows : List IndexedValue) (tid : Option Nat) (iid : Nat)
    (v : Option Json) :
    lookupIV (rows.map (fun r => if rowKey r tid iid then { r with value := v } else r))
        tid iid
      = (lookupIV rows tid iid).map (fun _ => v) := by
  induction rows with
  | nil => rfl
  | cons r rs ih =>
    cases h : rowKey r tid iid with
    | true => simp [lookupIV, h, rowKey_set_value]
    | false => simp [lookupIV, h, ih]

theorem lookupIV_append (a b : List IndexedValue) (tid : Option Nat) (iid : Nat) :
    lookupIV (a ++ b) tid iid =
      match lookupIV a tid iid with
      | some w => some w
      | none => lookupIV b tid iid := by
  induction a with
  | nil => rfl
  | cons r rs ih =>
    cases h : rowKey r tid iid with
    | true => simp [lookupIV, h]
    | false => simp [lookupIV, h, ih]

theorem lookupIV_syncRows_self (rows : List IndexedValue) (tid : Option Nat)
    (iid : Nat) (v : Option Json) :
    lookupIV (syncRows rows tid iid v) tid iid = some v := by
  unfold syncRows
  cases ha : rows.any (fun r => rowKey r tid iid) with
  | true =>
    rw [if_pos rfl, lookupIV_update]
    rw [lookupIV_any] at ha
    obtain ⟨w, hw⟩ := Option.isSome_iff_exists.mp ha
    rw [hw]
    rfl
  | false =>
    rw [if_neg (by simp), lookupIV_append]
    have hnone : lookupIV rows tid iid = none := by
      have := lookupIV_any rows tid iid
      rw [ha] at this
      exact Option.not_isSome_iff_eq_none.mp (by simp [← this])
    rw [hnone]
    simp [lookupIV, rowKey]

theorem lookupIV_update_other (rows : List IndexedValue) (tid tid2 : Option Nat)
    (iid iid2 : Nat) (v : Option Json) (h : ¬(tid2 = tid ∧ iid2 = iid)) :
    lookupIV (rows.map (fun r => if rowKey r tid iid then { r with value := v } else r))
        tid2 iid2
      = lookupIV rows tid2 iid2 := by
  induction rows with
  | nil => rfl
  | cons r rs ih =>
    cases hk : rowKey r tid iid with
    | false => simp [lookupIV, hk, ih]
    | true =>
      have hk2 : rowKey r tid2 iid2 = false := by
        cases hc : rowKey r tid2 iid2 with
        | false => rfl
        | true =>
          exfalso
          obtain ⟨a1, a2⟩ := (rowKey_eq_true r tid iid).mp hk
          obtain ⟨b1, b2⟩ := (rowKey_eq_true r tid2 iid2).mp hc
          exact h ⟨by rw [← b1, a1], by rw [← b2, a2]⟩
      simp [lookupIV, hk, hk2, rowKey_set_value, ih]

theorem lookupIV_syncRows_other (rows : List IndexedValue) (tid tid2 : Option Nat)
    (iid iid2 : Nat) (v : Option Json) (h : ¬(tid2 = tid ∧ iid2 = iid)) :
    lookupIV (syncRows rows tid iid v) tid2 iid2 = lookupIV rows tid2 iid2 := by
  unfold syncRows
  cases ha : rows.any (fun r => rowKey r tid iid) with
  | true =>
    rw [if_pos rfl]
    exact lookupIV_update_other rows tid tid2 iid iid2 v h
  | false =>
    rw [if_neg (by simp), lookupIV_append]
    have hb : lookupIV [⟨tid, iid, v⟩] tid2 iid2 = none := by
      have hk : rowKey ⟨tid, iid, v⟩ tid2 iid2 = false := by
        cases hc : rowKey ⟨tid, iid, v⟩ tid2 iid2 with
        | false => rfl
        | true =>
          exfalso
          obtain ⟨b1, b2⟩ := (rowKey_eq_true ⟨tid, iid, v⟩ tid2 iid2).mp hc
          exact h ⟨b1.symm, b2.symm⟩
      simp [lookupIV, hk]
    cases hl : lookupIV rows tid2 iid2 with
    | some w => simp
    | none => simp [hb]

/-! Lemmas about the sync loop. -/

theorem sync_things (t : SubmittedThing) (idx : IndexSpec) (d : Json) (db : DB) :
    (IndexedValue.sync t idx d db).things = db.things := rfl

theorem sync_actions (t : SubmittedThing) (idx : IndexSpec) (d : Json) (db : DB) :
    (IndexedValue.sync t idx d db).actions = db.actions := rfl

theorem sync_indexSpecs (t : SubmittedThing) (idx : IndexSpec) (d : Json) (db : DB) :
    (IndexedValue.sync t idx d db).indexSpecs = db.indexSpecs := rfl

theorem syncAll_things (t : SubmittedThing) (d : Json) (idxs : List IndexSpec)
    (db : DB) : (syncAll t d idxs db).things = db.things := by
  induction idxs generalizing db with
  | nil => rfl
  | cons i rest ih =>
    simp only [syncAll]
    rw [ih]
    rfl

theorem syncAll_actions (t : SubmittedThing) (d : Json) (idxs : List IndexSpec)
    (db : DB) : (syncAll t d idxs db).actions = db.actions := by
  induction idxs generalizing db with
  | nil => rfl
  | cons i rest ih =>
    simp only [syncAll]
    rw [ih]
    rfl

theorem syncAll_indexSpecs (t : SubmittedThing) (d : Json) (idxs : List IndexSpec)
    (db : DB) : (syncAll t d idxs db).indexSpecs = db.indexSpecs := by
  induction idxs generalizing db with
  | nil => rfl
  | cons i rest ih =>
    simp only [syncAll]
    rw [ih]
    rfl

theorem syncAll_lookup_other (t : SubmittedThing) (d : Json) (idxs : List IndexSpec)
    (db : DB) (tid : Option Nat) (iid : Nat)
    (h : tid ≠ t.id ∨ ∀ idx ∈ idxs, iid ≠ idx.id) :
    lookupIV (syncAll t d idxs db).indexedValues tid iid
      = lookupIV db.indexedValues tid iid := by
  induction idxs generalizing db with
  | nil => rfl
  | cons i rest ih =>
    simp only [syncAll]
    have hrest : tid ≠ t.id ∨ ∀ idx ∈ rest, iid ≠ idx.id := by
      rcases h with h1 | h2
      · exact Or.inl h1
      · exact Or.inr (fun idx hm => h2 idx (List.mem_cons_of_mem i hm))
    rw [ih (IndexedValue.sync t i d db) hrest]
    have hkey : ¬(tid = t.id ∧ iid = i.id) := by
      rcases h with h1 | h2
      · exact fun hc => h1 hc.1
      · exact fun hc => h2 i (List.mem_cons_self i rest) hc.2
    exact lookupIV_syncRows_other db.indexedValues t.id tid i.id iid _ hkey

theorem syncAll_lookup_mem (t : SubmittedThing) (d : Json) (idxs : List IndexSpec)
    (db : DB) (spec : IndexSpec) (hmem : spec ∈ idxs)
    (hnd : (idxs.map IndexSpec.id).Nodup) :
    lookupIV (syncAll t d idxs db).indexedValues t.id spec.id
      = some (extract d spec.path) := by
  induction idxs generalizing db with
  | nil => cases hmem
  | cons i rest ih =>
    simp only [syncAll]
    have hnd2 : (i.id ∉ rest.map IndexSpec.id) ∧ (rest.map IndexSpec.id).Nodup := by
      rw [List.map_cons] at hnd
      exact List.nodup_cons.mp hnd
    rcases List.mem_cons.mp hmem with heq | hmem2
    · subst heq
      have hni : ∀ idx ∈ rest, spec.id ≠ idx.id := by
        intro idx hidx heq2
        exact hnd2.1 (heq2 ▸ List.mem_map_of_mem IndexSpec.id hidx)
      rw [syncAll_lookup_other t d rest _ t.id spec.id (Or.inr hni)]
      exact lookupIV_syncRows_self db.indexedValues t.id spec.id (extract d spec.path)
    · exact ih _ hmem2 hnd2.2

/-! Lemmas about `index_values`. -/

theorem index_values_empty (t : SubmittedThing) (indexes : Option (List IndexSpec))
    (db : DB) (h : resolveIndexes t indexes db = []) :
    SubmittedThing.index_values t indexes db = Except.ok (db, 0) := by
  unfold SubmittedThing.index_values
  rw [h]
  rfl

theorem index_values_parsed (t : SubmittedThing) (indexes : Option (List IndexSpec))
    (db : DB) (d : Json) (hne : resolveIndexes t indexes db ≠ [])
    (hp : json_loads t.data = Except.ok d) :
    SubmittedThing.index_values t indexes db
      = Except.ok (syncAll t d (resolveIndexes t indexes db) db, 1) := by
  unfold SubmittedThing.index_values
  rw [hp, if_neg (by simpa [List.length_eq_zero] using hne)]

theorem index_values_malformed (t : SubmittedThing)
    (indexes : Option (List IndexSpec)) (db : DB)
    (hne : resolveIndexes t indexes db ≠ []) (hm : t.data = none) :
    SubmittedThing.index_values t indexes db
      = Except.error "ValueError: Expected object or value" := by
  unfold SubmittedThing.index_values
  rw [hm, if_neg (by simpa [List.length_eq_zero] using hne)]
  rfl

theorem index_values_ok_frame (t : SubmittedThing)
    (indexes : Option (List IndexSpec)) (db db2 : DB) (n : Nat)
    (h : SubmittedThing.index_values t indexes db = Except.ok (db2, n)) :
    db2.things = db.things ∧ db2.actions = db.actions ∧
      db2.indexSpecs = db.indexSpecs := by
  unfold SubmittedThing.index_values at h
  by_cases hl : (resolveIndexes t indexes db).length == 0
  · rw [if_pos hl] at h
    obtain ⟨h1, -⟩ := Prod.mk.injEq .. ▸ Except.ok.inj h
    rw [← h1]
    exact ⟨rfl, rfl, rfl⟩
  · rw [if_neg hl] at h
    cases hp : json_loads t.data with
    | error e => rw [hp] at h; cases h
    | ok d =>
      rw [hp] at h
      obtain ⟨h1, -⟩ := Prod.mk.injEq .. ▸ Except.ok.inj h
      rw [← h1]
      exact ⟨syncAll_things .., syncAll_actions .., syncAll_indexSpecs ..⟩

/-! Lemmas about the save orchestration. -/

theorem save_ok_cases (persist : PersistFn) (t t' : SubmittedThing) (silent : Bool)
    (source : String) (reindex : Bool) (db db' : DB)
    (h : SubmittedThing.save persist t silent source reindex db
      = Except.ok (t', db')) :
    ∃ t2 db1 db2 n, persist t db = Except.ok (t2, db1) ∧
      (if reindex then SubmittedThing.index_values t2 none db1
       else Except.ok (db1, 0)) = Except.ok (db2, n) ∧
      t' = t2 ∧
      db' = (if silent then db2
             else { db2 with actions := db2.actions ++
               [{ action := if t.id.isNone then "create" else "update",
                  thing := t2.id, source := source }] }) := by
  unfold SubmittedThing.save at h
  split at h
  · cases h
  · rename_i t2 db1 hp
    split at h
    · cases h
    · rename_i db2 n hm
      split at h
      · rename_i hs
        injection h with h0
        injection h0 with h1 h2
        exact ⟨t2, db1, db2, n, hp, hm, h1.symm, by rw [if_pos hs]; exact h2.symm⟩
      · rename_i hs
        injection h with h0
        injection h0 with h1 h2
        exact ⟨t2, db1, db2, n, hp, hm, h1.symm, by rw [if_neg hs]; exact h2.symm⟩

theorem reindex_step_frame (t2 : SubmittedThing) (reindex : Bool) (db1 db2 : DB)
    (n : Nat)
    (hm : (if reindex then SubmittedThing.index_values t2 none db1
           else Except.ok (db1, 0)) = Except.ok (db2, n)) :
    db2.things = db1.things ∧ db2.actions = db1.actions ∧
      db2.indexSpecs = db1.indexSpecs := by
  cases reindex with
  | true =>
    rw [if_pos rfl] at hm
    exact index_values_ok_frame t2 none db1 db2 n hm
  | false =>
    rw [if_neg (by simp)] at hm
    injection hm with h0
    injection h0 with h1 h2
    rw [← h1]
    exact ⟨rfl, rfl, rfl⟩

theorem recordStorePersist_spec (t : SubmittedThing) (db : DB) :
    ∃ t2 db1, recordStorePersist t db = Except.ok (t2, db1) ∧
      db1.actions = db.actions ∧ db1.indexSpecs = db.indexSpecs ∧
      t2.id.isSome = true ∧
      (∀ i, t.id = some i → t2 = t) ∧
      (t.id = none → t2 = { t with id := some db.nextId }) ∧
      t2 ∈ db1.things ∧
      t2.submitter = t.submitter ∧ t2.dataset = t.dataset ∧
      t2.visible = t.visible ∧ t2.data = t.data := by
  unfold recordStorePersist
  cases ht : t.id with
  | none =>
    refine ⟨{ t with id := some db.nextId }, _, rfl, rfl, rfl, rfl, ?_, ?_, ?_,
      rfl, rfl, rfl, rfl⟩
    · intro i2 hi
      exact Option.noConfusion hi
    · intro _
      rfl
    · simp
  | some i =>
    cases hex : db.things.any (fun u => u.id == some i) with
    | true =>
      refine ⟨t, _, rfl, rfl, rfl, ?_, ?_, ?_, ?_, rfl, rfl, rfl, rfl⟩
      · rw [ht]
        rfl
      · intro i2 _
        rfl
      · intro hc
        exact Option.noConfusion hc
      · obtain ⟨u, hu, hui⟩ := List.any_eq_true.mp hex
        exact List.mem_map.mpr ⟨u, hu, by rw [if_pos hui]⟩
    | false =>
      refine ⟨t, _, rfl, rfl, rfl, ?_, ?_, ?_, ?_, rfl, rfl, rfl, rfl⟩
      · rw [ht]
        rfl
      · intro i2 _
        rfl
      · intro hc
        exact Option.noConfusion hc
      · simp

/-- C1: for every SubmittedThing, a successful `save` with `silent=False` appends
exactly one Action whose kind is `create` when the thing had no assigned identity
before persisting and `update` otherwise, referencing the saved thing and carrying
the caller-supplied source label; a successful `save` with `silent=True` appends no
Action. -/
theorem c1_save_audit_action (t : SubmittedThing) (db : DB) (source : String)
    (reindex : Bool) :
    (∀ t' db', SubmittedThing.save recordStorePersist t false source reindex db
        = Except.ok (t', db') →
      db'.actions = db.actions ++
        [{ action := if t.id = none then "create" else "update",
           thing := t'.id, source := source }]) ∧
    (∀ t' db', SubmittedThing.save recordStorePersist t true source reindex db
        = Except.ok (t', db') →
      db'.actions = db.actions) := by
  obtain ⟨t2, db1, hp, hact, hspecs, hsome, hkeep, hnew, hmem, hsub, hds, hvis,
    hdata⟩ := recordStorePersist_spec t db
  constructor
  · intro t' db' h
    obtain ⟨t2b, db1b, db2, n, hpb, hm, ht', hdb'⟩ :=
      save_ok_cases recordStorePersist t t' false source reindex db db' h
    rw [hp] at hpb
    injection hpb with h0
    injection h0 with he1 he2
    subst he1
    subst he2
    obtain ⟨-, hmact, -⟩ := reindex_step_frame t2 reindex db1 db2 n hm
    subst ht'
    rw [hdb', if_neg (by simp)]
    have hkind : (if t.id.isNone then "create" else "update")
        = if t.id = none then "create" else "update" := by
      cases t.id <;> simp
    simp only [hkind]
    rw [hmact, hact]
  · intro t' db' h
    obtain ⟨t2b, db1b, db2, n, hpb, hm, ht', hdb'⟩ :=
      save_ok_cases recordStorePersist t t' true source reindex db db' h
    rw [hp] at hpb
    injection hpb with h0
    injection h0 with he1 he2
    subst he1
    subst he2
    obtain ⟨-, hmact, -⟩ := reindex_step_frame t2 reindex db1 db2 n hm
    rw [hdb', if_pos rfl, hmact, hact]

/-- Witness for C1 at a concrete fresh thing: the non-silent save into `wDb`
appends exactly the one `create` Action. -/
theorem c1_witness :
    wDb2.actions = wDb.actions ++
      [{ action := if wThing.id = none then "create" else "update",
         thing := wThing2.id, source := "web" }] :=
  (c1_save_audit_action wThing wDb "web" true).1 wThing2 wDb2 rfl

/-- C2: for every SubmittedThing save call, a failing persist aborts the whole
orchestration: the raised persistence error propagates, the reindex and audit steps
never run, and no state value is produced, so no Indexed Value or Action state is
changed. -/
theorem c2_save_persist_failure (persist : PersistFn) (t : SubmittedThing)
    (db : DB) (silent : Bool) (source : String) (reindex : Bool) (e : String)
    (h : persist t db = Except.error e) :
    SubmittedThing.save persist t silent source reindex db = Except.error e := by
  unfold SubmittedThing.save
  rw [h]

/-- Witness for C2: a persist rejecting the write with an integrity error makes
`save` surface exactly that error. -/
theorem c2_witness :
    SubmittedThing.save (failingPersist "IntegrityError") wThing false "web" true wDb
      = Except.error "IntegrityError" :=
  c2_save_persist_failure (failingPersist "IntegrityError") wThing wDb false "web"
    true "IntegrityError" rfl

/-- C9: newness is decided solely by the identity field being unset at the start of
`save`: a thing whose id is already assigned before its first save gets an `update`
Action from the non-silent save, not a `create` one. -/
theorem c9_preassigned_id_is_update (t : SubmittedThing) (i : Nat) (db : DB)
    (source : String) (reindex : Bool) (hid : t.id = some i) :
    ∀ t' db', SubmittedThing.save recordStorePersist t false source reindex db
        = Except.ok (t', db') →
      db'.actions = db.actions ++ [{ action := "update", thing := t'.id,
                                     source := source }] := by
  intro t' db' h
  obtain ⟨t2, db1, hp, hact, hspecs, hsome, hkeep, hnew, hmem, hsub, hds, hvis,
    hdata⟩ := recordStorePersist_spec t db
  obtain ⟨t2b, db1b, db2, n, hpb, hm, ht', hdb'⟩ :=
    save_ok_cases recordStorePersist t t' false source reindex db db' h
  rw [hp] at hpb
  injection hpb with h0
  injection h0 with he1 he2
  subst he1
  subst he2
  obtain ⟨-, hmact, -⟩ := reindex_step_frame t2 reindex db1 db2 n hm
  subst ht'
  rw [hdb', if_neg (by simp)]
  have hkind : (if t.id.isNone then "create" else "update") = "update" := by
    rw [hid]
    rfl
  simp only [hkind]
  rw [hmact, hact]

/-- Witness for C9: saving a thing carrying the pre-set id 5 that was never stored
produces an `update` Action, not a `create` one. -/
theorem c9_witness :
    wDb9.actions = wDb.actions ++
      [{ action := "update", thing := wThingPre.id, source := "import" }] :=
  c9_preassigned_id_is_update wThingPre 5 wDb "import" true rfl wThingPre wDb9 rfl

/-- C6: a successful `save` returns the persisted entity: the returned thing equals
the argument on every non-identity field, carries an assigned identity (the
pre-existing one when the thing already had an id), and is stored in the resulting
record store. -/
theorem c6_save_returns_persisted (t t' : SubmittedThing) (db db' : DB)
    (silent : Bool) (source : String) (reindex : Bool)
    (h : SubmittedThing.save recordStorePersist t silent source reindex db
      = Except.ok (t', db')) :
    t'.id.isSome = true ∧ (∀ i, t.id = some i → t'.id = some i) ∧
      t'.submitter = t.submitter ∧ t'.dataset = t.dataset ∧
      t'.visible = t.visible ∧ t'.data = t.data ∧
      t' ∈ db'.things := by
  obtain ⟨t2, db1, hp, hact, hspecs, hsome, hkeep, hnew, hmem, hsub, hds, hvis,
    hdata⟩ := recordStorePersist_spec t db
  obtain ⟨t2b, db1b, db2, n, hpb, hm, ht', hdb'⟩ :=
    save_ok_cases recordStorePersist t t' silent source reindex db db' h
  rw [hp] at hpb
  injection hpb with h0
  injection h0 with he1 he2
  subst he1
  subst he2
  obtain ⟨hmthings, -, -⟩ := reindex_step_frame t2 reindex db1 db2 n hm
  subst ht'
  have hthings : db'.things = db1.things := by
    rw [hdb']
    cases silent with
    | true => rw [if_pos rfl]; exact hmthings
    | false => rw [if_neg (by simp)]; exact hmthings
  refine ⟨hsome, ?_, hsub, hds, hvis, hdata, ?_⟩
  · intro i hi
    rw [hkeep i hi, hi]
  · rw [hthings]
    exact hmem

/-- Witness for C6: the save of the fresh `wThing` returns `wThing2`, which has id 1
assigned and is stored. -/
theorem c6_witness :
    wThing2.id.isSome = true ∧
      (∀ i, wThing.id = some i → wThing2.id = some i) ∧
      wThing2.submitter = wThing.submitter ∧ wThing2.dataset = wThing.dataset ∧
      wThing2.visible = wThing.visible ∧ wThing2.data = wThing.data ∧
      wThing2 ∈ wDb2.things :=
  c6_save_returns_persisted wThing wThing2 wDb wDb2 false "web" true rfl

/-- C4: `index_values` with an empty set of index specs performs zero storage
writes: it returns the store unchanged, with zero `json.loads` calls, both for an
explicitly empty spec list and for the default spec set when the dataset defines no
index specs.  The statement quantifies over every thing, including ones whose blob
is malformed: the short circuit fires before the blob is parsed. -/
theorem c4_index_values_empty_noop (t : SubmittedThing) (db : DB) :
    SubmittedThing.index_values t (some []) db = Except.ok (db, 0) ∧
      (datasetIndexes db t.dataset = [] →
        SubmittedThing.index_values t none db = Except.ok (db, 0)) := by
  constructor
  · exact index_values_empty t (some []) db rfl
  · intro h
    exact index_values_empty t none db h

/-- Witness for C4 over a store whose dataset defines no index specs. -/
theorem c4_witness :
    SubmittedThing.index_values wThing (some []) dbNoIdx = Except.ok (dbNoIdx, 0) ∧
      SubmittedThing.index_values wThing none dbNoIdx = Except.ok (dbNoIdx, 0) :=
  ⟨(c4_index_values_empty_noop wThing dbNoIdx).1,
   (c4_index_values_empty_noop wThing dbNoIdx).2 rfl⟩

/-- C5: `index_values` with the default spec set re-derives Indexed Values for every
index spec currently defined on the thing's dataset; within one call the JSON blob
is parsed exactly once (the call's parse count is 1) and the single parsed document
is reused for every spec. -/
theorem c5_index_values_parse_once (t : SubmittedThing) (db : DB) (j : Json)
    (hok : json_loads t.data = Except.ok j)
    (hne : datasetIndexes db t.dataset ≠ [])
    (hnd : ((datasetIndexes db t.dataset).map IndexSpec.id).Nodup) :
    ∃ db', SubmittedThing.index_values t none db = Except.ok (db', 1) ∧
      ∀ spec ∈ datasetIndexes db t.dataset,
        lookupIV db'.indexedValues t.id spec.id = some (extract j spec.path) := by
  refine ⟨syncAll t j (datasetIndexes db t.dataset) db, ?_, ?_⟩
  · exact index_values_parsed t none db j hne hok
  · intro spec hs
    exact syncAll_lookup_mem t j (datasetIndexes db t.dataset) db spec hs hnd

/-- Witness for C5 at `tC5` over `wDb`: one parse, and the parsed document's `name`
value is stored for the dataset's single index spec. -/
theorem c5_witness :
    ∃ db', SubmittedThing.index_values tC5 none wDb = Except.ok (db', 1) ∧
      lookupIV db'.indexedValues tC5.id wSpec.id
        = some (extract (Json.obj [("name", Json.str "CP")]) wSpec.path) := by
  obtain ⟨db', h1, h2⟩ := c5_index_values_parse_once tC5 wDb
    (Json.obj [("name", Json.str "CP")]) rfl (by decide) (by decide)
  exact ⟨db', h1, h2 wSpec (by decide)⟩

/-- C3 counterexample: with one index spec defined on its dataset, `index_values`
on a thing whose data blob is malformed JSON raises the parse error to its caller
instead of recovering it locally. -/
theorem c3_counterexample :
    SubmittedThing.index_values mThing none wDb
      = Except.error "ValueError: Expected object or value" := rfl

/-- C3 amended: when the data blob is well-formed, reindexing does not raise, and a
missing indexed field path is recovered locally by storing a null/absent Indexed
Value for that spec; a malformed blob with a nonempty spec set instead raises the
JSON parse error to the caller (the counterexample records this). -/
theorem c3_missing_path_stores_null (t : SubmittedThing) (db : DB) (j : Json)
    (hok : json_loads t.data = Except.ok j)
    (hnd : ((datasetIndexes db t.dataset).map IndexSpec.id).Nodup) :
    ∃ db' n, SubmittedThing.index_values t none db = Except.ok (db', n) ∧
      ∀ spec ∈ datasetIndexes db t.dataset, extract j spec.path = none →
        lookupIV db'.indexedValues t.id spec.id = some none := by
  by_cases hne : datasetIndexes db t.dataset = []
  · refine ⟨db, 0, index_values_empty t none db hne, ?_⟩
    intro spec hs
    rw [hne] at hs
    cases hs
  · refine ⟨syncAll t j (datasetIndexes db t.dataset) db, 1,
      index_values_parsed t none db j hne hok, ?_⟩
    intro spec hs hmiss
    rw [syncAll_lookup_mem t j (datasetIndexes db t.dataset) db spec hs hnd, hmiss]

/-- Witness for the amended C3 at `tMiss`: the spec's `name` path is missing from
the well-formed blob, `index_values` succeeds, and a null Indexed Value is
stored. -/
theorem c3_witness :
    lookupIV wDbMiss.indexedValues tMiss.id wSpec.id = some none := by
  obtain ⟨db', n, h1, h2⟩ := c3_missing_path_stores_null tMiss wDb (Json.obj [])
    rfl (by decide)
  rw [show SubmittedThing.index_values tMiss none wDb = Except.ok (wDbMiss, 1)
    from rfl] at h1
  injection h1 with h0
  injection h0 with hdb hn
  subst hdb
  exact h2 wSpec (by decide) rfl

/-! Lemmas about the bulk reindex loop. -/

theorem index_values_lookup_other (t : SubmittedThing)
    (idxs : Option (List IndexSpec)) (db db2 : DB) (n : Nat) (tid : Option Nat)
    (iid : Nat)
    (h : SubmittedThing.index_values t idxs db = Except.ok (db2, n))
    (hne : tid ≠ t.id) :
    lookupIV db2.indexedValues tid iid = lookupIV db.indexedValues tid iid := by
  unfold SubmittedThing.index_values at h
  by_cases hl : (resolveIndexes t idxs db).length == 0
  · rw [if_pos hl] at h
    injection h with h0
    injection h0 with h1 h2
    rw [← h1]
  · rw [if_neg hl] at h
    cases hp : json_loads t.data with
    | error e =>
      rw [hp] at h
      cases h
    | ok d =>
      rw [hp] at h
      injection h with h0
      injection h0 with h1 h2
      rw [← h1]
      exact syncAll_lookup_other t d (resolveIndexes t idxs db) db tid iid
        (Or.inl hne)

theorem reindexThings_frame (idxs : List IndexSpec) (things : List SubmittedThing)
    (db db' : DB) (h : reindexThings idxs things db = Except.ok db') :
    db'.things = db.things ∧ db'.actions = db.actions ∧
      db'.indexSpecs = db.indexSpecs := by
  induction things generalizing db with
  | nil =>
    injection h with h0
    rw [← h0]
    exact ⟨rfl, rfl, rfl⟩
  | cons u rest ih =>
    unfold reindexThings at h
    split at h
    · cases h
    · rename_i db2 n hv
      obtain ⟨h1, h2, h3⟩ := index_values_ok_frame u (some idxs) db db2 n hv
      obtain ⟨g1, g2, g3⟩ := ih db2 h
      exact ⟨g1.trans h1, g2.trans h2, g3.trans h3⟩

theorem reindexThings_lookup_other (idxs : List IndexSpec)
    (things : List SubmittedThing) (db db' : DB) (tid : Option Nat) (iid : Nat)
    (h : reindexThings idxs things db = Except.ok db')
    (hni : ∀ u ∈ things, tid ≠ u.id) :
    lookupIV db'.indexedValues tid iid = lookupIV db.indexedValues tid iid := by
  induction things generalizing db with
  | nil =>
    injection h with h0
    rw [← h0]
  | cons u rest ih =>
    unfold reindexThings at h
    split at h
    · cases h
    · rename_i db2 n hv
      rw [ih db2 h (fun x hx => hni x (List.mem_cons_of_mem u hx))]
      exact index_values_lookup_other u (some idxs) db db2 n tid iid hv
        (hni u (List.mem_cons_self u rest))

theorem reindexThings_sync (idxs : List IndexSpec) (things : List SubmittedThing)
    (db db' : DB) (h : reindexThings idxs things db = Except.ok db')
    (hndT : (things.map SubmittedThing.id).Nodup)
    (hndI : (idxs.map IndexSpec.id).Nodup) :
    ∀ t ∈ things, ∀ spec ∈ idxs,
      ∃ j, json_loads t.data = Except.ok j ∧
        lookupIV db'.indexedValues t.id spec.id = some (extract j spec.path) := by
  induction things generalizing db with
  | nil =>
    intro t ht
    cases ht
  | cons u rest ih =>
    intro t ht spec hs
    unfold reindexThings at h
    split at h
    · cases h
    · rename_i db2 n hv
      have hnd2 : (u.id ∉ rest.map SubmittedThing.id) ∧
          (rest.map SubmittedThing.id).Nodup := by
        rw [List.map_cons] at hndT
        exact List.nodup_cons.mp hndT
      rcases List.mem_cons.mp ht with heq | hmem
      · subst heq
        have hne : idxs ≠ [] := by
          intro hnil
          rw [hnil] at hs
          cases hs
        cases hp : json_loads t.data with
        | error e =>
          exfalso
          cases hd : t.data with
          | some j =>
            rw [hd] at hp
            cases hp
          | none =>
            rw [index_values_malformed t (some idxs) db hne hd] at hv
            cases hv
        | ok j =>
          refine ⟨j, rfl, ?_⟩
          rw [index_values_parsed t (some idxs) db j hne hp] at hv
          injection hv with h0
          injection h0 with hdbe hne2
          have hfr : lookupIV db'.indexedValues t.id spec.id
              = lookupIV db2.indexedValues t.id spec.id := by
            refine reindexThings_lookup_other idxs rest db2 db' t.id spec.id h ?_
            intro x hx heq2
            exact hnd2.1 (heq2 ▸ List.mem_map_of_mem SubmittedThing.id hx)
          rw [hfr, ← hdbe]
          exact syncAll_lookup_mem t j idxs db spec hs hndI
      · exact ih db2 h hnd2.2 t hmem spec hs

/-- C10: `DataSet.reindex` calls `index_values` on every thing of the dataset,
passing the dataset's currently defined index specs: when it completes, every
(thing, spec) pair holds the value extracted from that thing's parsed blob, while
no Action record is created and the things themselves are not persisted (both
tables are unchanged). -/
theorem c10_dataset_reindex (ds : DataSet) (db db' : DB)
    (hndT : (db.things.map SubmittedThing.id).Nodup)
    (hndI : ((datasetIndexes db ds.id).map IndexSpec.id).Nodup)
    (h : DataSet.reindex ds db = Except.ok db') :
    db'.actions = db.actions ∧ db'.things = db.things ∧
      ∀ t ∈ db.things, t.dataset = ds.id →
        ∀ spec ∈ datasetIndexes db ds.id,
          ∃ j, json_loads t.data = Except.ok j ∧
            lookupIV db'.indexedValues t.id spec.id = some (extract j spec.path) := by
  unfold DataSet.reindex at h
  obtain ⟨h1, h2, h3⟩ := reindexThings_frame (datasetIndexes db ds.id)
    (db.things.filter (fun u => u.dataset == ds.id)) db db' h
  refine ⟨h2, h1, ?_⟩
  intro t ht hds spec hs
  have htf : t ∈ db.things.filter (fun u => u.dataset == ds.id) := by
    rw [List.mem_filter]
    exact ⟨ht, by simp [hds]⟩
  have hndF : ((db.things.filter (fun u => u.dataset == ds.id)).map
      SubmittedThing.id).Nodup :=
    List.Nodup.sublist (List.Sublist.map SubmittedThing.id
      (List.filter_sublist db.things)) hndT
  exact reindexThings_sync (datasetIndexes db ds.id)
    (db.things.filter (fun u => u.dataset == ds.id)) db db' h hndF hndI t htf
    spec hs

/-- Witness for C10: bulk reindex of `dsW` over `wDbX` leaves actions and things
unchanged and stores the extracted `name` of the first thing. -/
theorem c10_witness :
    dbR.actions = wDbX.actions ∧ dbR.things = wDbX.things ∧
      lookupIV dbR.indexedValues tA.id wSpec.id
        = some (extract (Json.obj [("name", Json.str "A")]) wSpec.path) := by
  have h := c10_dataset_reindex dsW wDbX dbR (by decide) (by decide) rfl
  refine ⟨h.1, h.2.1, ?_⟩
  obtain ⟨j, hj, hv⟩ := h.2.2 tA (show tA ∈ [tA, tB] from List.mem_cons_self tA
    [tB]) rfl wSpec (by decide)
  rw [show json_loads tA.data = Except.ok (Json.obj [("name", Json.str "A")])
    from rfl] at hj
  injection hj with hje
  subst hje
  exact hv

/-! Lemmas about the clone mixin. -/

theorem lookupField_append (a b : List (String × Json)) (f : String) :
    lookupField (a ++ b) f =
      match lookupField a f with
      | some v => some v
      | none => lookupField b f := by
  induction a with
  | nil => rfl
  | cons p rest ih =>
    obtain ⟨n, v⟩ := p
    by_cases h : n = f
    · simp [lookupField, h]
    · simp [lookupField, h, ih]

theorem lookupField_setdefault_same (kw : List (String × Json)) (f : String)
    (v : Json) :
    lookupField (setdefault kw f v) f = some ((lookupField kw f).getD v) := by
  unfold setdefault
  cases h : lookupField kw f with
  | some w => simp [h]
  | none => simp [h, lookupField_append, lookupField]

theorem lookupField_setdefault_other (kw : List (String × Json)) (f g : String)
    (v : Json) (h : g ≠ f) :
    lookupField (setdefault kw f v) g = lookupField kw g := by
  unfold setdefault
  cases hf : lookupField kw f with
  | some w => rfl
  | none =>
    rw [lookupField_append]
    cases hg : lookupField kw g with
    | some w => rfl
    | none =>
      have : lookupField [(f, v)] g = none := by
        simp only [lookupField]
        rw [if_neg (fun e => h e.symm)]

      simp [this]

theorem copyFields_preserves (ignore : List String) (self : List (String × Json))
    (fields : List String) (kw : List (String × Json)) (g : String) (v : Json)
    (h : lookupField kw g = some v) :
    lookupField (copyFields ignore self fields kw) g = some v := by
  induction fields generalizing kw with
  | nil => exact h
  | cons f rest ih =>
    simp only [copyFields]
    by_cases hi : f ∈ ignore
    · rw [if_pos hi]
      exact ih kw h
    · rw [if_neg hi]
      by_cases hg : g = f
      · subst hg
        apply ih
        unfold setdefault
        rw [h]
        exact h
      · apply ih
        rw [lookupField_setdefault_other kw f g _ hg]
        exact h

theorem copyFields_absent (ignore : List String) (self : List (String × Json))
    (fields : List String) (kw : List (String × Json)) (g : String)
    (h : lookupField kw g = none) :
    lookupField (copyFields ignore self fields kw) g =
      if g ∈ fields ∧ g ∉ ignore then some (getattr self g) else none := by
  induction fields generalizing kw with
  | nil => simpa using h
  | cons f rest ih =>
    simp only [copyFields]
    by_cases hi : f ∈ ignore
    · rw [if_pos hi, ih kw h]
      by_cases hg : g = f
      · subst hg
        simp [hi]
      · simp [List.mem_cons, hg]
    · rw [if_neg hi]
      by_cases hg : g = f
      · subst hg
        have h2 : lookupField (setdefault kw g (getattr self g)) g
            = some (getattr self g) := by
          rw [lookupField_setdefault_same, h]
          rfl
        rw [copyFields_preserves ignore self rest _ g _ h2]
        simp [hi]
      · have h2 : lookupField (setdefault kw f (getattr self f)) g = none := by
          rw [lookupField_setdefault_other kw f g _ hg]
          exact h
        rw [ih _ h2]
        simp [List.mem_cons, hg]

theorem get_ignore_fields_ok (cls : ModelClass) (l : List String)
    (h : CloneableModelMixin.get_ignore_fields cls = Except.ok l) :
    l = cls.pkChain := by
  induction cls generalizing l with
  | base own pk =>
    unfold CloneableModelMixin.get_ignore_fields at h
    split at h
    · injection h with h0
      rw [← h0]
      rfl
    · cases h
  | derived own pk p ih =>
    unfold CloneableModelMixin.get_ignore_fields at h
    split at h
    · split at h
      · rename_i parentIgnore hp
        injection h with h0
        rw [← h0, ModelClass.pkChain, ih parentIgnore hp]
      · cases h
    · cases h

/-- C7: `clone` on any cloneable model class produces a new instance of that same
class whose fields named in the overrides take the override values, whose remaining
non-identity fields equal the source instance's values, and whose identity and
parent-link fields (the recursively computed ignore set, equal to the chain of
primary-key names up the inheritance chain) are left unset; the embedding is a pure
function of the source instance, which is therefore unchanged. -/
theorem c7_clone_copies_all_but_identity (cls : ModelClass)
    (self kw : List (String × Json)) (ignore : List String)
    (hig : CloneableModelMixin.get_ignore_fields cls = Except.ok ignore) :
    ∃ inst, CloneableModelMixin.clone cls self kw = Except.ok inst ∧
      ignore = cls.pkChain ∧
      (∀ f v, lookupField kw f = some v → lookupField inst f = some v) ∧
      (∀ f, lookupField kw f = none → f ∈ cls.fields → f ∉ ignore →
        lookupField inst f = some (getattr self f)) ∧
      (∀ f, lookupField kw f = none → f ∉ cls.fields ∨ f ∈ ignore →
        lookupField inst f = none) := by
  refine ⟨copyFields ignore self cls.fields kw, ?_, get_ignore_fields_ok cls ignore
    hig, ?_, ?_, ?_⟩
  · unfold CloneableModelMixin.clone
    rw [hig]
  · intro f v h
    exact copyFields_preserves ignore self cls.fields kw f v h
  · intro f h hf hni
    rw [copyFields_absent ignore self cls.fields kw f h, if_pos ⟨hf, hni⟩]
  · intro f h hor
    rw [copyFields_absent ignore self cls.fields kw f h, if_neg]
    rcases hor with h1 | h2
    · exact fun hc => h1 hc.1
    · exact fun hc => hc.2 h2

/-- Witness for C7 on the Submission fixture: the clone keeps the overridden
`set_name`, copies the parent-class field `data` from the source, and leaves both
the parent-link pk `submittedthing_ptr` and the parent pk `id` unset. -/
theorem c7_witness :
    ∃ inst, CloneableModelMixin.clone submissionClass wSelf wKwargs
        = Except.ok inst ∧
      lookupField inst "set_name" = some (Json.str "surveys") ∧
      lookupField inst "data" = some (Json.str "blob") ∧
      lookupField inst "place" = some (Json.num 11) ∧
      lookupField inst "submittedthing_ptr" = none ∧
      lookupField inst "id" = none := by
  obtain ⟨inst, hok, hchain, hover, hcopy, hid⟩ :=
    c7_clone_copies_all_but_identity submissionClass wSelf wKwargs
      ["submittedthing_ptr", "id"] rfl
  refine ⟨inst, hok, hover "set_name" (Json.str "surveys") rfl, ?_, ?_, ?_, ?_⟩
  · have := hcopy "data" rfl (by decide) (by decide)
    rw [this]
    rfl
  · have := hcopy "place" rfl (by decide) (by decide)
    rw [this]
    rfl
  · exact hid "submittedthing_ptr" rfl (Or.inr (by decide))
  · exact hid "id" rfl (Or.inr (by decide))

/-- C8: on a dataset creation save the post-save hook seeds exactly two default
allowed origins — one whose pattern matches the openplans.org domains and one for
openplans.github.io — each with all of its update and destroy permissions disabled;
on a non-creation save of the dataset the hook changes nothing. -/
theorem c8_after_create_dataset_origins (dsId : Nat)
    (defaultPerms : List Permission) (origins : List Origin) :
    (∃ o1 o2, after_create_dataset true dsId defaultPerms origins
        = origins ++ [o1, o2] ∧
      o1.datasetId = dsId ∧ o1.pattern = "(?:www.)?openplans.org" ∧
      o2.datasetId = dsId ∧ o2.pattern = "openplans.github.io" ∧
      (∀ p ∈ o1.permissions, p.can_update = false ∧ p.can_destroy = false) ∧
      (∀ p ∈ o2.permissions, p.can_update = false ∧ p.can_destroy = false)) ∧
    after_create_dataset false dsId defaultPerms origins = origins := by
  constructor
  · refine ⟨(Origin.create dsId "(?:www.)?openplans.org"
        defaultPerms).disablePermissions,
      (Origin.create dsId "openplans.github.io" defaultPerms).disablePermissions,
      rfl, rfl, rfl, rfl, rfl, ?_, ?_⟩
    · intro p hp
      obtain ⟨q, hq, hpq⟩ := List.mem_map.mp hp
      rw [← hpq]
      exact ⟨rfl, rfl⟩
    · intro p hp
      obtain ⟨q, hq, hpq⟩ := List.mem_map.mp hp
      rw [← hpq]
      exact ⟨rfl, rfl⟩
  · rfl

/-- Witness for C8 at dataset 7 with one fully-enabled default permission row: the
creation hook seeds exactly two origins and the non-creation hook none. -/
theorem c8_witness :
    (after_create_dataset true 7 [⟨true, true⟩] []).length = 2 ∧
      after_create_dataset false 7 [⟨true, true⟩] [] = [] := by
  obtain ⟨⟨o1, o2, h1, -, -, -, -, -, -⟩, h2⟩ :=
    c8_after_create_dataset_origins 7 [⟨true, true⟩] []
  constructor
  · rw [h1]
    rfl
  · exact h2

end Shareabouts
